import Mathlib

/-!
Verification of the repo-check classification engine: a shallow embedding of
the repository classifier (`src/checker.rs`), its result type (`src/types.rs`),
discovery (`src/scanner.rs`) and the deletion guard (`src/delete.rs`).

The external version-control tool is modelled as a gateway function from a
repository path and an argument vector to either raw stdout text or an error
message, mirroring `git_command`. All text handling follows Rust `str`
semantics (`lines`, `trim`, `starts_with`) on the character list of a string.
-/

namespace RepoCheck

/-! ## Data model (`src/types.rs`) -/

/-- Repository check status (`types.rs` enum `Status`). -/
inductive Status where
  | Safe
  | Unsafe
  | Unknown
deriving DecidableEq, Repr

/-- Reason for the check result (`types.rs` enum `Reason`). -/
inductive Reason where
  | UncommittedChanges
  | StashExists
  | LocalOnlyCommits
  | NoRemoteRefs
  | GitError (msg : String)
  | AllChecksOk
deriving DecidableEq, Repr

/-- Repository check result (`types.rs` struct `RepoResult`). -/
structure RepoResult where
  path : String
  status : Status
  reasons : List Reason
  dirty_count : Nat
  stash_count : Nat
  local_only_commit_count : Nat
  errors : List String
deriving DecidableEq, Repr

/-- `RepoResult::new`: fresh result, verdict `Safe`, empty findings. -/
def RepoResult.new (path : String) : RepoResult :=
  { path := path
    status := Status.Safe
    reasons := []
    dirty_count := 0
    stash_count := 0
    local_only_commit_count := 0
    errors := [] }

/-- `RepoResult::mark_unsafe`: set status to `Unsafe` and push the reason. -/
def RepoResult.markUnsafe (r : RepoResult) (reason : Reason) : RepoResult :=
  { r with status := Status.Unsafe, reasons := r.reasons ++ [reason] }

/-- `RepoResult::mark_unknown`: set status to `Unknown` only if not already
`Unsafe`, and push the reason. -/
def RepoResult.mark_unknown (r : RepoResult) (reason : Reason) : RepoResult :=
  { r with status := if r.status = Status.Unsafe then r.status else Status.Unknown,
           reasons := r.reasons ++ [reason] }

/-- `RepoResult::finalize_safe`: if the status is still `Safe`, push
`AllChecksOk`. -/
def RepoResult.finalize_safe (r : RepoResult) : RepoResult :=
  if r.status = Status.Safe then { r with reasons := r.reasons ++ [Reason.AllChecksOk] } else r

/-- User response for deletion confirmation (`types.rs` enum `DeleteConfirm`). -/
inductive DeleteConfirm where
  | yes
  | no
  | all
  | quit
deriving DecidableEq, Repr

/-! ## Rust string semantics -/

/-- ASCII whitespace recognised by the model of Rust `str::trim`. -/
def isWhitespaceChar (c : Char) : Bool :=
  c = ' ' || c = '\t' || c = '\n' || c = '\r'

/-- Trim leading and trailing whitespace from a character list. -/
def trimChars (l : List Char) : List Char :=
  ((l.dropWhile isWhitespaceChar).reverse.dropWhile isWhitespaceChar).reverse

/-- Model of Rust `str::trim`. -/
def trimStr (s : String) : String :=
  String.mk (trimChars s.data)

/-- Split a character list at newline characters (accumulator holds the
current line reversed). -/
def splitNewlines : List Char → List Char → List (List Char)
  | [], cur => [cur.reverse]
  | c :: rest, cur =>
    if c = '\n' then cur.reverse :: splitNewlines rest [] else splitNewlines rest (c :: cur)

/-- Strip one trailing carriage return, as Rust `str::lines` does per line. -/
def stripCR (l : List Char) : List Char :=
  if l.getLast? = some '\r' then l.dropLast else l

/-- Model of Rust `str::lines`: split at `\n`, drop a final empty segment
produced by a trailing newline, strip a trailing `\r` from each line. -/
def rustLines (s : String) : List String :=
  if s.data.isEmpty then []
  else
    let parts := splitNewlines s.data []
    let parts := if s.data.getLast? = some '\n' then parts.dropLast else parts
    parts.map (fun l => String.mk (stripCR l))

/-! ## Version-control gateway (`git_command` in `src/checker.rs`) -/

/-- The gateway: the external tool as a function from repository path and
argument vector to stdout text or an error message. -/
def Gateway := String → List String → Except String String

/-- `git_command`: one invocation of the external tool. -/
def git_command (git : Gateway) (repo_path : String) (args : List String) :
    Except String String :=
  git repo_path args

/-! ## Classifier (`src/checker.rs`) -/

/-- Check A (`check_uncommitted_changes`): count non-empty status lines,
excluding untracked (`??`) lines when `ignore_untracked` is set; a positive
count forces `Unsafe` with finding `UncommittedChanges`; a gateway failure
records `GitError`, downgrades to `Unknown` unless already `Unsafe`, and
appends the raw message to the error list. -/
def check_uncommitted_changes (git : Gateway) (repo_path : String)
    (result : RepoResult) (ignore_untracked : Bool) : RepoResult :=
  match git_command git repo_path ["status", "--porcelain"] with
  | Except.error e =>
    let result := result.mark_unknown (Reason.GitError e)
    { result with errors := result.errors ++ [e] }
  | Except.ok output =>
    let dirty_count := (rustLines output).countP (fun line =>
      !line.data.isEmpty && !(ignore_untracked && List.isPrefixOf "??".data line.data))
    let result := { result with dirty_count := dirty_count }
    if dirty_count > 0 then result.markUnsafe Reason.UncommittedChanges else result

/-- Check B (`check_stash`): count non-empty stash-list lines; positive
count forces `Unsafe` with finding `StashExists`; gateway failure handled as
in check A. -/
def check_stash (git : Gateway) (repo_path : String) (result : RepoResult) : RepoResult :=
  match git_command git repo_path ["stash", "list"] with
  | Except.error e =>
    let result := result.mark_unknown (Reason.GitError e)
    { result with errors := result.errors ++ [e] }
  | Except.ok output =>
    let stash_count := (rustLines output).countP (fun l => !l.data.isEmpty)
    let result := { result with stash_count := stash_count }
    if stash_count > 0 then result.markUnsafe Reason.StashExists else result

/-- Check C (`check_local_only_commits`): query remotes and remote-tracking
refs; a gateway failure on any query records `GitError`/`Unknown`; if either
trimmed output is empty, record `NoRemoteRefs` and set `Unknown` (unless
already `Unsafe`) without enumerating commits; otherwise count non-empty
lines of the branch-exclusion log, a positive count forcing `Unsafe` with
finding `LocalOnlyCommits`. -/
def check_local_only_commits (git : Gateway) (repo_path : String)
    (result : RepoResult) : RepoResult :=
  match git_command git repo_path ["remote"] with
  | Except.error e =>
    let result := result.mark_unknown (Reason.GitError e)
    { result with errors := result.errors ++ [e] }
  | Except.ok remotes =>
    match git_command git repo_path ["for-each-ref", "--format=%(refname)", "refs/remotes/"] with
    | Except.error e =>
      let result := result.mark_unknown (Reason.GitError e)
      { result with errors := result.errors ++ [e] }
    | Except.ok remote_refs =>
      if (trimStr remotes).data.isEmpty || (trimStr remote_refs).data.isEmpty then
        result.mark_unknown Reason.NoRemoteRefs
      else
        match git_command git repo_path ["log", "--oneline", "--branches", "--not", "--remotes"] with
        | Except.error e =>
          let result := result.mark_unknown (Reason.GitError e)
          { result with errors := result.errors ++ [e] }
        | Except.ok output =>
          let local_only_count := (rustLines output).countP (fun l => !l.data.isEmpty)
          let result := { result with local_only_commit_count := local_only_count }
          if local_only_count > 0 then result.markUnsafe Reason.LocalOnlyCommits else result

/-- `check_repository`: run the three checks in order on a fresh result,
then finalize. -/
def check_repository (git : Gateway) (repo_path : String) (ignore_untracked : Bool) :
    RepoResult :=
  let result := RepoResult.new repo_path
  let result := check_uncommitted_changes git repo_path result ignore_untracked
  let result := check_stash git repo_path result
  let result := check_local_only_commits git repo_path result
  result.finalize_safe

/-- `quick_recheck`: TOCTOU mitigation; re-run only the status query and
return true iff its trimmed output is empty, false on gateway failure. -/
def quick_recheck (git : Gateway) (repo_path : String) : Bool :=
  match git_command git repo_path ["status", "--porcelain"] with
  | Except.ok output => (trimStr output).data.isEmpty
  | Except.error _ => false

/-! ## Discovery (`src/scanner.rs`) -/

/-- The filesystem as seen by discovery: existence and is-directory
predicates, and a directory listing that may fail (returning the surviving
entries as full paths, `none` on a listing error). -/
structure FileSystem where
  pathExists : String → Bool
  isDir : String → Bool
  readDir : String → Option (List String)

/-- `is_git_repository`: the `.git` child exists and is a directory. -/
def is_git_repository (fs : FileSystem) (path : String) : Bool :=
  let git_path := path ++ "/.git"
  fs.pathExists git_path && fs.isDir git_path

/-- `find_repositories`: the base path itself when `include_dot` is set and
it qualifies, plus the qualifying immediate children when the listing
succeeds, sorted. -/
def find_repositories (fs : FileSystem) (base_path : String) (include_dot : Bool) :
    List String :=
  let repos : List String :=
    if include_dot && is_git_repository fs base_path then [base_path] else []
  let repos := repos ++
    (match fs.readDir base_path with
     | some entries => entries.filter (fun p => fs.isDir p && is_git_repository fs p)
     | none => [])
  List.insertionSort (· ≤ ·) repos

/-! ## Deletion guard (`src/delete.rs`) -/

/-- `get_delete_candidates`: keep results whose status is `Safe`, or
`Unknown` when `allow_unknown` is set. -/
def get_delete_candidates (results : List RepoResult) (allow_unknown : Bool) :
    List RepoResult :=
  results.filter (fun r =>
    r.status == Status.Safe || (allow_unknown && r.status == Status.Unknown))

/-- The interactive and filesystem environment of one iteration of the
deletion loop: the gateway at delete time, the user's confirmation answer,
and the outcome `delete_repository` would produce if invoked (`ok true` =
deleted, `ok false` = declined/trash failure, `error` = filesystem error). -/
structure DeleteEnv where
  git : Gateway
  confirm : DeleteConfirm
  deleteOutcome : Except String Bool

/-- Outcome of the confirmation phase of one deletion-loop iteration. -/
inductive Gate where
  | proceed (delete_all : Bool)
  | skip
  | stop
deriving DecidableEq, Repr

/-- The confirmation phase of `execute_delete`: when `delete_all` is set the
prompt is skipped; otherwise Yes proceeds, No skips, All proceeds and sets
`delete_all`, Quit aborts the loop. -/
def confirmGate (delete_all : Bool) (c : DeleteConfirm) : Gate :=
  if delete_all then Gate.proceed delete_all
  else
    match c with
    | DeleteConfirm.yes => Gate.proceed delete_all
    | DeleteConfirm.no => Gate.skip
    | DeleteConfirm.all => Gate.proceed true
    | DeleteConfirm.quit => Gate.stop

/-- The loop of `execute_delete`, with its mutable state (`delete_all`,
`deleted`, `skipped`) explicit, extended with the trace `deletions` of paths
on which the destructive `delete_repository` call was performed. -/
def execute_delete_from (delete_all : Bool) (deleted skipped : Nat)
    (deletions : List String) : List (RepoResult × DeleteEnv) → Nat × Nat × List String
  | [] => (deleted, skipped, deletions)
  | (result, env) :: rest =>
    match confirmGate delete_all env.confirm with
    | Gate.stop => (deleted, skipped, deletions)
    | Gate.skip => execute_delete_from delete_all deleted (skipped + 1) deletions rest
    | Gate.proceed da =>
      if quick_recheck env.git result.path then
        match env.deleteOutcome with
        | Except.ok true =>
          execute_delete_from da (deleted + 1) skipped (deletions ++ [result.path]) rest
        | Except.ok false =>
          execute_delete_from da deleted (skipped + 1) (deletions ++ [result.path]) rest
        | Except.error _ =>
          execute_delete_from da deleted (skipped + 1) (deletions ++ [result.path]) rest
      else
        execute_delete_from da deleted (skipped + 1) deletions rest

/-- `execute_delete`: run the deletion loop over the candidates, starting
with `delete_all = skip_confirm` and empty counters. -/
def execute_delete (candidates : List (RepoResult × DeleteEnv)) (skip_confirm : Bool) :
    Nat × Nat × List String :=
  execute_delete_from skip_confirm 0 0 [] candidates

/-! ## Check sequences

A reified sequence of the operations `check_repository` applies to the
shared result, used to state order-independent precedence invariants. -/

/-- One step of a check sequence: one of the three checks (with its gateway
and path), or finalization. -/
inductive CheckStep where
  | uncommitted (git : Gateway) (repo_path : String) (ignore_untracked : Bool)
  | stash (git : Gateway) (repo_path : String)
  | localOnly (git : Gateway) (repo_path : String)
  | finalize

/-- Apply one check step to a result. -/
def applyStep : CheckStep → RepoResult → RepoResult
  | CheckStep.uncommitted git p ig, r => check_uncommitted_changes git p r ig
  | CheckStep.stash git p, r => check_stash git p r
  | CheckStep.localOnly git p, r => check_local_only_commits git p r
  | CheckStep.finalize, r => r.finalize_safe

/-- Apply a sequence of check steps in order. -/
def applySteps (steps : List CheckStep) (r : RepoResult) : RepoResult :=
  steps.foldl (fun acc s => applyStep s acc) r

/-! ## Basic lemmas about the result primitives -/

@[simp]
lemma markUnsafe_status (r : RepoResult) (x : Reason) :
    (RepoResult.markUnsafe r x).status = Status.Unsafe := rfl

@[simp]
lemma markUnsafe_reasons (r : RepoResult) (x : Reason) :
    (RepoResult.markUnsafe r x).reasons = r.reasons ++ [x] := rfl

@[simp]
lemma mark_unknown_status (r : RepoResult) (x : Reason) :
    (RepoResult.mark_unknown r x).status =
      if r.status = Status.Unsafe then r.status else Status.Unknown := rfl

@[simp]
lemma mark_unknown_reasons (r : RepoResult) (x : Reason) :
    (RepoResult.mark_unknown r x).reasons = r.reasons ++ [x] := rfl

@[simp]
lemma finalize_safe_status (r : RepoResult) :
    (RepoResult.finalize_safe r).status = r.status := by
  unfold RepoResult.finalize_safe
  split <;> rfl

/-- Check A either leaves status and reasons untouched or pushes a single
reason other than `AllChecksOk`. -/
lemma check_uncommitted_cases (g : Gateway) (p : String) (r : RepoResult) (ig : Bool) :
    ((check_uncommitted_changes g p r ig).status = r.status ∧
      (check_uncommitted_changes g p r ig).reasons = r.reasons) ∨
    ∃ x, x ≠ Reason.AllChecksOk ∧
      (check_uncommitted_changes g p r ig).reasons = r.reasons ++ [x] := by
  unfold check_uncommitted_changes git_command
  cases g p ["status", "--porcelain"] with
  | error e =>
    right
    exact ⟨Reason.GitError e, fun h => Reason.noConfusion h, by simp⟩
  | ok o =>
    dsimp only
    split
    · right
      exact ⟨Reason.UncommittedChanges, fun h => Reason.noConfusion h, by simp⟩
    · left
      exact ⟨rfl, rfl⟩

/-- Check B either leaves status and reasons untouched or pushes a single
reason other than `AllChecksOk`. -/
lemma check_stash_cases (g : Gateway) (p : String) (r : RepoResult) :
    ((check_stash g p r).status = r.status ∧
      (check_stash g p r).reasons = r.reasons) ∨
    ∃ x, x ≠ Reason.AllChecksOk ∧
      (check_stash g p r).reasons = r.reasons ++ [x] := by
  unfold check_stash git_command
  cases g p ["stash", "list"] with
  | error e =>
    right
    exact ⟨Reason.GitError e, fun h => Reason.noConfusion h, by simp⟩
  | ok o =>
    dsimp only
    split
    · right
      exact ⟨Reason.StashExists, fun h => Reason.noConfusion h, by simp⟩
    · left
      exact ⟨rfl, rfl⟩

/-- Check C either leaves status and reasons untouched or pushes a single
reason other than `AllChecksOk`. -/
lemma check_local_only_cases (g : Gateway) (p : String) (r : RepoResult) :
    ((check_local_only_commits g p r).status = r.status ∧
      (check_local_only_commits g p r).reasons = r.reasons) ∨
    ∃ x, x ≠ Reason.AllChecksOk ∧
      (check_local_only_commits g p r).reasons = r.reasons ++ [x] := by
  unfold check_local_only_commits git_command
  cases g p ["remote"] with
  | error e =>
    right
    exact ⟨Reason.GitError e, fun h => Reason.noConfusion h, by simp⟩
  | ok rs =>
    cases g p ["for-each-ref", "--format=%(refname)", "refs/remotes/"] with
    | error e =>
      right
      exact ⟨Reason.GitError e, fun h => Reason.noConfusion h, by simp⟩
    | ok fr =>
      dsimp only
      split
      · right
        exact ⟨Reason.NoRemoteRefs, fun h => Reason.noConfusion h, by simp⟩
      · cases g p ["log", "--oneline", "--branches", "--not", "--remotes"] with
        | error e =>
          right
          exact ⟨Reason.GitError e, fun h => Reason.noConfusion h, by simp⟩
        | ok o =>
          dsimp only
          split
          · right
            exact ⟨Reason.LocalOnlyCommits, fun h => Reason.noConfusion h, by simp⟩
          · left
            exact ⟨rfl, rfl⟩

/-- Check A never downgrades an `Unsafe` status. -/
lemma check_uncommitted_preserves (g : Gateway) (p : String) (r : RepoResult) (ig : Bool)
    (h : r.status = Status.Unsafe) :
    (check_uncommitted_changes g p r ig).status = Status.Unsafe := by
  unfold check_uncommitted_changes git_command
  cases g p ["status", "--porcelain"] with
  | error e => simp [h]
  | ok o =>
    dsimp only
    split
    · simp
    · exact h

/-- Check B never downgrades an `Unsafe` status. -/
lemma check_stash_preserves (g : Gateway) (p : String) (r : RepoResult)
    (h : r.status = Status.Unsafe) :
    (check_stash g p r).status = Status.Unsafe := by
  unfold check_stash git_command
  cases g p ["stash", "list"] with
  | error e => simp [h]
  | ok o =>
    dsimp only
    split
    · simp
    · exact h

/-- Check C never downgrades an `Unsafe` status. -/
lemma check_local_only_preserves (g : Gateway) (p : String) (r : RepoResult)
    (h : r.status = Status.Unsafe) :
    (check_local_only_commits g p r).status = Status.Unsafe := by
  unfold check_local_only_commits git_command
  cases g p ["remote"] with
  | error e => simp [h]
  | ok rs =>
    cases g p ["for-each-ref", "--format=%(refname)", "refs/remotes/"] with
    | error e => simp [h]
    | ok fr =>
      dsimp only
      split
      · simp [h]
      · cases g p ["log", "--oneline", "--branches", "--not", "--remotes"] with
        | error e => simp [h]
        | ok o =>
          dsimp only
          split
          · simp
          · exact h

/-- Any single check step never downgrades an `Unsafe` status. -/
lemma applyStep_preserves (s : CheckStep) (r : RepoResult)
    (h : r.status = Status.Unsafe) :
    (applyStep s r).status = Status.Unsafe := by
  cases s with
  | uncommitted g p ig => exact check_uncommitted_preserves g p r ig h
  | stash g p => exact check_stash_preserves g p r h
  | localOnly g p => exact check_local_only_preserves g p r h
  | finalize => rw [applyStep, finalize_safe_status]; exact h

/-! ## Concrete fixtures used by witnesses -/

/-- A gateway for a clean repository with a remote and fully pushed work. -/
def gwClean : Gateway := fun _ args =>
  if args = ["remote"] then Except.ok "origin\n"
  else if args = ["for-each-ref", "--format=%(refname)", "refs/remotes/"] then
    Except.ok "refs/remotes/origin/main\n"
  else Except.ok ""

/-- A gateway for a repository whose only change is one untracked file. -/
def gwUntrackedOnly : Gateway := fun _ args =>
  if args = ["status", "--porcelain"] then Except.ok "?? untracked.txt\n"
  else if args = ["remote"] then Except.ok "origin\n"
  else if args = ["for-each-ref", "--format=%(refname)", "refs/remotes/"] then
    Except.ok "refs/remotes/origin/main\n"
  else Except.ok ""

/-- A result already marked `Unsafe`. -/
def rMarked : RepoResult := { RepoResult.new "/u" with status := Status.Unsafe }

/-! ## Claims -/

/-- C1: Verdict-precedence invariant — for every sequence of check steps
applied to a result, once the status is `Unsafe` no later step (any check,
`mark_unknown` included, or finalization) changes it, and `mark_unsafe`
always overwrites the current status with `Unsafe`. -/
theorem C1_verdict_precedence :
    (∀ (steps : List CheckStep) (r : RepoResult), r.status = Status.Unsafe →
      (applySteps steps r).status = Status.Unsafe) ∧
    (∀ (r : RepoResult) (x : Reason),
      (RepoResult.markUnsafe r x).status = Status.Unsafe) := by
  constructor
  · intro steps
    induction steps with
    | nil => intro r h; exact h
    | cons s rest ih =>
      intro r h
      simp only [applySteps, List.foldl_cons]
      simp only [applySteps] at ih
      exact ih _ (applyStep_preserves s r h)
  · intro r x
    rfl

/-- Witness for C1 at a concrete `Unsafe` result and step sequence. -/
theorem C1_verdict_precedence_witness :
    (applySteps [CheckStep.stash gwClean "/u", CheckStep.finalize] rMarked).status
      = Status.Unsafe ∧
    (RepoResult.markUnsafe (RepoResult.new "/p") Reason.StashExists).status = Status.Unsafe :=
  ⟨C1_verdict_precedence.1 _ _ rfl, C1_verdict_precedence.2 _ _⟩

/-- C6: Deletion candidate selection — a result is selected iff it is in the
input and its status is `Safe`, or `Unknown` with `allow_unknown` set; an
`Unsafe` result is never selected. -/
theorem C6_delete_candidates :
    ∀ (results : List RepoResult) (allow_unknown : Bool) (r : RepoResult),
      (r ∈ get_delete_candidates results allow_unknown ↔
        r ∈ results ∧
          (r.status = Status.Safe ∨ allow_unknown = true ∧ r.status = Status.Unknown)) ∧
      (r.status = Status.Unsafe → r ∉ get_delete_candidates results allow_unknown) := by
  intro results allow r
  have hmem : r ∈ get_delete_candidates results allow ↔
      r ∈ results ∧ (r.status = Status.Safe ∨ allow = true ∧ r.status = Status.Unknown) := by
    simp [get_delete_candidates, List.mem_filter]
  refine ⟨hmem, fun h hc => ?_⟩
  rcases hmem.mp hc with ⟨_, h1 | ⟨_, h2⟩⟩
  · rw [h] at h1
    exact Status.noConfusion h1
  · rw [h] at h2
    exact Status.noConfusion h2

/-- Witness for C6: a concrete `Unsafe` result is not selected even with
`allow_unknown` set. -/
theorem C6_delete_candidates_witness :
    rMarked ∉ get_delete_candidates [RepoResult.new "/s", rMarked] true :=
  (C6_delete_candidates [RepoResult.new "/s", rMarked] true rMarked).2 rfl

/-- C7 counterexample: finalization applied twice to a fresh (Safe) result
differs from applying it once — the second application appends a second
`AllChecksOk` finding. -/
theorem C7_counterexample :
    RepoResult.finalize_safe (RepoResult.finalize_safe (RepoResult.new "/test")) ≠
      RepoResult.finalize_safe (RepoResult.new "/test") := by decide

/-- C7 (amended): finalization preserves the status, is idempotent exactly
on results whose status is not `Safe`, and on a `Safe` result each
application appends one more `AllChecksOk` finding. -/
theorem C7_finalize_behaviour :
    ∀ r : RepoResult,
      (RepoResult.finalize_safe (RepoResult.finalize_safe r)).status
        = (RepoResult.finalize_safe r).status ∧
      (r.status ≠ Status.Safe →
        RepoResult.finalize_safe (RepoResult.finalize_safe r) = RepoResult.finalize_safe r) ∧
      (r.status = Status.Safe →
        (RepoResult.finalize_safe (RepoResult.finalize_safe r)).reasons
          = r.reasons ++ [Reason.AllChecksOk, Reason.AllChecksOk]) := by
  intro r
  by_cases h : r.status = Status.Safe <;>
    simp [RepoResult.finalize_safe, h]

/-- Witness for C7 at a concrete non-`Safe` result and a concrete `Safe`
result. -/
theorem C7_finalize_behaviour_witness :
    RepoResult.finalize_safe (RepoResult.finalize_safe rMarked)
      = RepoResult.finalize_safe rMarked ∧
    (RepoResult.finalize_safe (RepoResult.finalize_safe (RepoResult.new "/p"))).reasons
      = (RepoResult.new "/p").reasons ++ [Reason.AllChecksOk, Reason.AllChecksOk] :=
  ⟨(C7_finalize_behaviour rMarked).2.1 (by decide),
   (C7_finalize_behaviour (RepoResult.new "/p")).2.2 rfl⟩

/-- C9: the quick recheck does not honor `ignore_untracked` — on a
repository whose only change is an untracked file, classification with
`ignore_untracked = true` reports `dirty_count = 0`, no `UncommittedChanges`
finding, and verdict `Safe`, yet `quick_recheck` returns false, so the
deletion loop never reaches the destructive call for it. -/
theorem C9_quick_recheck_ignores_untracked :
    (check_repository gwUntrackedOnly "/repo" true).dirty_count = 0 ∧
    Reason.UncommittedChanges ∉ (check_repository gwUntrackedOnly "/repo" true).reasons ∧
    (check_repository gwUntrackedOnly "/repo" true).status = Status.Safe ∧
    quick_recheck gwUntrackedOnly "/repo" = false ∧
    (∀ (c : DeleteConfirm) (o : Except String Bool) (sc : Bool),
      (execute_delete
        [(check_repository gwUntrackedOnly "/repo" true,
          { git := gwUntrackedOnly, confirm := c, deleteOutcome := o })] sc).2.2 = []) := by
  refine ⟨by decide, by decide, by decide, by decide, ?_⟩
  intro c o sc
  have hq : quick_recheck gwUntrackedOnly "/repo" = false := by decide
  have hpath : (check_repository gwUntrackedOnly "/repo" true).path = "/repo" := by decide
  cases sc <;> cases c <;>
    simp [execute_delete, execute_delete_from, confirmGate, hpath, hq]

/-- Check A never records `AllChecksOk`. -/
lemma check_uncommitted_no_ack (g : Gateway) (p : String) (r : RepoResult) (ig : Bool)
    (h : Reason.AllChecksOk ∉ r.reasons) :
    Reason.AllChecksOk ∉ (check_uncommitted_changes g p r ig).reasons := by
  rcases check_uncommitted_cases g p r ig with ⟨_, hr⟩ | ⟨x, hx, hr⟩
  · rw [hr]; exact h
  · rw [hr]
    intro hm
    rcases List.mem_append.mp hm with hm | hm
    · exact h hm
    · exact hx (List.mem_singleton.mp hm).symm

/-- Check B never records `AllChecksOk`. -/
lemma check_stash_no_ack (g : Gateway) (p : String) (r : RepoResult)
    (h : Reason.AllChecksOk ∉ r.reasons) :
    Reason.AllChecksOk ∉ (check_stash g p r).reasons := by
  rcases check_stash_cases g p r with ⟨_, hr⟩ | ⟨x, hx, hr⟩
  · rw [hr]; exact h
  · rw [hr]
    intro hm
    rcases List.mem_append.mp hm with hm | hm
    · exact h hm
    · exact hx (List.mem_singleton.mp hm).symm

/-- Check C never records `AllChecksOk`. -/
lemma check_local_only_no_ack (g : Gateway) (p : String) (r : RepoResult)
    (h : Reason.AllChecksOk ∉ r.reasons) :
    Reason.AllChecksOk ∉ (check_local_only_commits g p r).reasons := by
  rcases check_local_only_cases g p r with ⟨_, hr⟩ | ⟨x, hx, hr⟩
  · rw [hr]; exact h
  · rw [hr]
    intro hm
    rcases List.mem_append.mp hm with hm | hm
    · exact h hm
    · exact hx (List.mem_singleton.mp hm).symm

/-- A check step preserves the evidence invariant: `Safe` status or a
non-empty findings list. -/
lemma evidence_step {r new : RepoResult}
    (hc : (new.status = r.status ∧ new.reasons = r.reasons) ∨
      ∃ x, x ≠ Reason.AllChecksOk ∧ new.reasons = r.reasons ++ [x])
    (hp : r.status = Status.Safe ∨ r.reasons ≠ []) :
    new.status = Status.Safe ∨ new.reasons ≠ [] := by
  rcases hc with ⟨hs, hr⟩ | ⟨x, _, hr⟩
  · rw [hs, hr]; exact hp
  · right; rw [hr]; simp

/-- C3: `AllChecksOk` appears in the findings of `check_repository` if and
only if the final status is `Safe`. -/
theorem C3_allchecks_iff_safe :
    ∀ (g : Gateway) (p : String) (ig : Bool),
      Reason.AllChecksOk ∈ (check_repository g p ig).reasons ↔
        (check_repository g p ig).status = Status.Safe := by
  intro g p ig
  set r1 := check_uncommitted_changes g p (RepoResult.new p) ig with hr1
  set r2 := check_stash g p r1 with hr2
  set r3 := check_local_only_commits g p r2 with hr3
  have h0 : Reason.AllChecksOk ∉ (RepoResult.new p).reasons := by
    simp [RepoResult.new]
  have h3 : Reason.AllChecksOk ∉ r3.reasons :=
    check_local_only_no_ack g p r2
      (check_stash_no_ack g p r1 (check_uncommitted_no_ack g p (RepoResult.new p) ig h0))
  have hcr : check_repository g p ig = RepoResult.finalize_safe r3 := rfl
  rw [hcr]
  unfold RepoResult.finalize_safe
  by_cases hs : r3.status = Status.Safe
  · simp [hs]
  · simp [hs, h3]

/-- C10: every classification carries non-empty evidence — the findings
list of `check_repository` is never empty, and a `Safe` verdict carries
`AllChecksOk`. -/
theorem C10_nonempty_evidence :
    ∀ (g : Gateway) (p : String) (ig : Bool),
      (check_repository g p ig).reasons.isEmpty = false ∧
      ((check_repository g p ig).status = Status.Safe →
        Reason.AllChecksOk ∈ (check_repository g p ig).reasons) := by
  intro g p ig
  set r1 := check_uncommitted_changes g p (RepoResult.new p) ig with hr1
  set r2 := check_stash g p r1 with hr2
  set r3 := check_local_only_commits g p r2 with hr3
  have hp0 : (RepoResult.new p).status = Status.Safe ∨ (RepoResult.new p).reasons ≠ [] :=
    Or.inl rfl
  have hp3 : r3.status = Status.Safe ∨ r3.reasons ≠ [] :=
    evidence_step (check_local_only_cases g p r2)
      (evidence_step (check_stash_cases g p r1)
        (evidence_step (check_uncommitted_cases g p (RepoResult.new p) ig) hp0))
  have hcr : check_repository g p ig = RepoResult.finalize_safe r3 := rfl
  rw [hcr]
  unfold RepoResult.finalize_safe
  by_cases hs : r3.status = Status.Safe
  · simp [hs]
  · have hne : r3.reasons ≠ [] := hp3.resolve_left hs
    constructor
    · simp [hs]
      cases hl : r3.reasons with
      | nil => exact absurd hl hne
      | cons a t => simp
    · intro h
      rw [if_neg hs] at h
      exact absurd h hs

/-- Witness for C10 at a clean repository with a remote. -/
theorem C10_nonempty_evidence_witness :
    (check_repository gwClean "/c" false).reasons.isEmpty = false ∧
    Reason.AllChecksOk ∈ (check_repository gwClean "/c" false).reasons :=
  ⟨(C10_nonempty_evidence gwClean "/c" false).1,
   (C10_nonempty_evidence gwClean "/c" false).2 (by decide)⟩

/-! ## Branch characterizations of the checks -/

/-- Check A on a gateway failure: `GitError` finding, `Unknown` unless
already `Unsafe`, raw message appended to the error list, counts untouched. -/
lemma check_uncommitted_error_eq (g : Gateway) (p : String) (r : RepoResult) (ig : Bool)
    (e : String) (h : git_command g p ["status", "--porcelain"] = Except.error e) :
    check_uncommitted_changes g p r ig =
      { r with
          status := if r.status = Status.Unsafe then r.status else Status.Unknown,
          reasons := r.reasons ++ [Reason.GitError e],
          errors := r.errors ++ [e] } := by
  simp [check_uncommitted_changes, h, RepoResult.mark_unknown]

/-- Check B on a gateway failure. -/
lemma check_stash_error_eq (g : Gateway) (p : String) (r : RepoResult)
    (e : String) (h : git_command g p ["stash", "list"] = Except.error e) :
    check_stash g p r =
      { r with
          status := if r.status = Status.Unsafe then r.status else Status.Unknown,
          reasons := r.reasons ++ [Reason.GitError e],
          errors := r.errors ++ [e] } := by
  simp [check_stash, h, RepoResult.mark_unknown]

/-- Check B on a successful query with a positive stash count. -/
lemma check_stash_pos_eq (g : Gateway) (p : String) (r : RepoResult) (s : String)
    (h : git_command g p ["stash", "list"] = Except.ok s)
    (hpos : 0 < (rustLines s).countP (fun l => !l.data.isEmpty)) :
    check_stash g p r =
      { r with
          stash_count := (rustLines s).countP (fun l => !l.data.isEmpty),
          status := Status.Unsafe,
          reasons := r.reasons ++ [Reason.StashExists] } := by
  simp [check_stash, h, hpos, RepoResult.markUnsafe]

/-- Check C on a failure of the remote-listing query. -/
lemma check_local_only_remote_error_eq (g : Gateway) (p : String) (r : RepoResult)
    (e : String) (h : git_command g p ["remote"] = Except.error e) :
    check_local_only_commits g p r =
      { r with
          status := if r.status = Status.Unsafe then r.status else Status.Unknown,
          reasons := r.reasons ++ [Reason.GitError e],
          errors := r.errors ++ [e] } := by
  simp [check_local_only_commits, h, RepoResult.mark_unknown]

/-- Check C on a failure of the remote-tracking-reference query. -/
lemma check_local_only_refs_error_eq (g : Gateway) (p : String) (r : RepoResult)
    (rs e : String) (h1 : git_command g p ["remote"] = Except.ok rs)
    (h2 : git_command g p ["for-each-ref", "--format=%(refname)", "refs/remotes/"]
      = Except.error e) :
    check_local_only_commits g p r =
      { r with
          status := if r.status = Status.Unsafe then r.status else Status.Unknown,
          reasons := r.reasons ++ [Reason.GitError e],
          errors := r.errors ++ [e] } := by
  simp [check_local_only_commits, h1, h2, RepoResult.mark_unknown]

/-- Check C when remotes and remote-tracking refs are present but the
commit enumeration fails. -/
lemma check_local_only_log_error_eq (g : Gateway) (p : String) (r : RepoResult)
    (rs fr e : String) (h1 : git_command g p ["remote"] = Except.ok rs)
    (h2 : git_command g p ["for-each-ref", "--format=%(refname)", "refs/remotes/"]
      = Except.ok fr)
    (h3 : ((trimStr rs).data.isEmpty || (trimStr fr).data.isEmpty) = false)
    (h4 : git_command g p ["log", "--oneline", "--branches", "--not", "--remotes"]
      = Except.error e) :
    check_local_only_commits g p r =
      { r with
          status := if r.status = Status.Unsafe then r.status else Status.Unknown,
          reasons := r.reasons ++ [Reason.GitError e],
          errors := r.errors ++ [e] } := by
  simp [check_local_only_commits, h1, h2, h3, h4, RepoResult.mark_unknown]

/-- Check C when one of the two queries reports no remote or no
remote-tracking refs: `NoRemoteRefs` is recorded, the status degrades to
`Unknown` unless already `Unsafe`, and nothing else changes. -/
lemma check_local_only_no_refs_eq (g : Gateway) (p : String) (r : RepoResult)
    (rs fr : String) (h1 : git_command g p ["remote"] = Except.ok rs)
    (h2 : git_command g p ["for-each-ref", "--format=%(refname)", "refs/remotes/"]
      = Except.ok fr)
    (h3 : ((trimStr rs).data.isEmpty || (trimStr fr).data.isEmpty) = true) :
    check_local_only_commits g p r =
      { r with
          status := if r.status = Status.Unsafe then r.status else Status.Unknown,
          reasons := r.reasons ++ [Reason.NoRemoteRefs] } := by
  simp [check_local_only_commits, h1, h2, h3, RepoResult.mark_unknown]

/-- Check C when remotes and refs are present and the enumeration returns a
positive count of non-empty lines: `LocalOnlyCommits`, status `Unsafe`. -/
lemma check_local_only_pos_eq (g : Gateway) (p : String) (r : RepoResult)
    (rs fr lo : String) (h1 : git_command g p ["remote"] = Except.ok rs)
    (h2 : git_command g p ["for-each-ref", "--format=%(refname)", "refs/remotes/"]
      = Except.ok fr)
    (h3 : ((trimStr rs).data.isEmpty || (trimStr fr).data.isEmpty) = false)
    (h4 : git_command g p ["log", "--oneline", "--branches", "--not", "--remotes"]
      = Except.ok lo)
    (hpos : 0 < (rustLines lo).countP (fun l => !l.data.isEmpty)) :
    check_local_only_commits g p r =
      { r with
          local_only_commit_count := (rustLines lo).countP (fun l => !l.data.isEmpty),
          status := Status.Unsafe,
          reasons := r.reasons ++ [Reason.LocalOnlyCommits] } := by
  simp [check_local_only_commits, h1, h2, h3, h4, hpos, RepoResult.markUnsafe]

/-- Check A never touches the local-only commit count. -/
lemma check_uncommitted_local_count (g : Gateway) (p : String) (r : RepoResult) (ig : Bool) :
    (check_uncommitted_changes g p r ig).local_only_commit_count
      = r.local_only_commit_count := by
  unfold check_uncommitted_changes git_command
  cases g p ["status", "--porcelain"] with
  | error e => rfl
  | ok o =>
    dsimp only
    split <;> rfl

/-- Check B never touches the local-only commit count. -/
lemma check_stash_local_count (g : Gateway) (p : String) (r : RepoResult) :
    (check_stash g p r).local_only_commit_count = r.local_only_commit_count := by
  unfold check_stash git_command
  cases g p ["stash", "list"] with
  | error e => rfl
  | ok o =>
    dsimp only
    split <;> rfl

/-- Finalization never touches the local-only commit count. -/
lemma finalize_local_count (r : RepoResult) :
    (RepoResult.finalize_safe r).local_only_commit_count = r.local_only_commit_count := by
  unfold RepoResult.finalize_safe
  split <;> rfl

/-- Finalization never touches the error list. -/
lemma finalize_errors (r : RepoResult) :
    (RepoResult.finalize_safe r).errors = r.errors := by
  unfold RepoResult.finalize_safe
  split <;> rfl

/-- Findings already recorded survive any later step of the cases shape. -/
lemma reasons_mem_of_cases {r new : RepoResult} {x : Reason}
    (hc : (new.status = r.status ∧ new.reasons = r.reasons) ∨
      ∃ y, y ≠ Reason.AllChecksOk ∧ new.reasons = r.reasons ++ [y])
    (h : x ∈ r.reasons) : x ∈ new.reasons := by
  rcases hc with ⟨_, hr⟩ | ⟨y, _, hr⟩
  · rw [hr]; exact h
  · rw [hr]; exact List.mem_append_left _ h

/-- Findings already recorded survive finalization. -/
lemma finalize_reasons_mem {r : RepoResult} {x : Reason} (h : x ∈ r.reasons) :
    x ∈ (RepoResult.finalize_safe r).reasons := by
  unfold RepoResult.finalize_safe
  split
  · exact List.mem_append_left _ h
  · exact h

/-- Error messages already recorded survive check C. -/
lemma check_local_only_errors_mem (g : Gateway) (p : String) (r : RepoResult)
    {x : String} (h : x ∈ r.errors) :
    x ∈ (check_local_only_commits g p r).errors := by
  unfold check_local_only_commits git_command
  cases g p ["remote"] with
  | error e => exact List.mem_append_left _ h
  | ok rs =>
    cases g p ["for-each-ref", "--format=%(refname)", "refs/remotes/"] with
    | error e => exact List.mem_append_left _ h
    | ok fr =>
      dsimp only
      split
      · exact h
      · cases g p ["log", "--oneline", "--branches", "--not", "--remotes"] with
        | error e => exact List.mem_append_left _ h
        | ok o =>
          dsimp only
          split <;> exact h

/-- C4: the local-only-commits check — when both the remote-listing query
and the remote-tracking-reference query succeed but one reports nothing,
the check records `NoRemoteRefs`, degrades the status to `Unknown` unless
already `Unsafe`, never runs the commit enumeration (its result does not
depend on the log query), and the classification's local-only commit count
stays 0; when remotes and refs are present and the enumeration succeeds with
a positive count of non-empty lines, the check records `LocalOnlyCommits`,
sets that count, and forces the status to `Unsafe`. -/
theorem C4_local_only_check :
    ∀ (g : Gateway) (p : String) (r : RepoResult) (rs fr : String),
      git_command g p ["remote"] = Except.ok rs →
      git_command g p ["for-each-ref", "--format=%(refname)", "refs/remotes/"]
        = Except.ok fr →
      (((trimStr rs).data.isEmpty || (trimStr fr).data.isEmpty) = true →
        check_local_only_commits g p r =
          { r with
              status := if r.status = Status.Unsafe then r.status else Status.Unknown,
              reasons := r.reasons ++ [Reason.NoRemoteRefs] } ∧
        (∀ x : Except String String,
          check_local_only_commits
            (fun q args =>
              if args = ["log", "--oneline", "--branches", "--not", "--remotes"] then x
              else g q args) p r
            = check_local_only_commits g p r) ∧
        (∀ ig : Bool, (check_repository g p ig).local_only_commit_count = 0)) ∧
      (((trimStr rs).data.isEmpty || (trimStr fr).data.isEmpty) = false →
        ∀ lo : String,
          git_command g p ["log", "--oneline", "--branches", "--not", "--remotes"]
            = Except.ok lo →
          0 < (rustLines lo).countP (fun l => !l.data.isEmpty) →
          check_local_only_commits g p r =
            { r with
                local_only_commit_count := (rustLines lo).countP (fun l => !l.data.isEmpty),
                status := Status.Unsafe,
                reasons := r.reasons ++ [Reason.LocalOnlyCommits] }) := by
  intro g p r rs fr h1 h2
  constructor
  · intro h3
    refine ⟨check_local_only_no_refs_eq g p r rs fr h1 h2 h3, ?_, ?_⟩
    · intro x
      have h1x : git_command
          (fun q args =>
            if args = ["log", "--oneline", "--branches", "--not", "--remotes"] then x
            else g q args) p ["remote"] = Except.ok rs := by
        simpa [git_command] using h1
      have h2x : git_command
          (fun q args =>
            if args = ["log", "--oneline", "--branches", "--not", "--remotes"] then x
            else g q args) p ["for-each-ref", "--format=%(refname)", "refs/remotes/"]
          = Except.ok fr := by
        simpa [git_command] using h2
      rw [check_local_only_no_refs_eq _ p r rs fr h1x h2x h3,
        check_local_only_no_refs_eq g p r rs fr h1 h2 h3]
    · intro ig
      have hc := check_local_only_no_refs_eq g p
        (check_stash g p (check_uncommitted_changes g p (RepoResult.new p) ig))
        rs fr h1 h2 h3
      have : check_repository g p ig =
          RepoResult.finalize_safe
            (check_local_only_commits g p
              (check_stash g p (check_uncommitted_changes g p (RepoResult.new p) ig))) := rfl
      rw [this, finalize_local_count, hc]
      show (check_stash g p (check_uncommitted_changes g p
        (RepoResult.new p) ig)).local_only_commit_count = 0
      rw [check_stash_local_count, check_uncommitted_local_count]
      rfl
  · intro h3 lo h4 hpos
    exact check_local_only_pos_eq g p r rs fr lo h1 h2 h3 h4 hpos

/-- A gateway whose every query succeeds with empty output (in particular:
no configured remote). -/
def gwEmptyOk : Gateway := fun _ _ => Except.ok ""

/-- A gateway for a repository with a remote and one unpushed commit. -/
def gwAhead : Gateway := fun _ args =>
  if args = ["remote"] then Except.ok "origin\n"
  else if args = ["for-each-ref", "--format=%(refname)", "refs/remotes/"] then
    Except.ok "refs/remotes/origin/main\n"
  else if args = ["log", "--oneline", "--branches", "--not", "--remotes"] then
    Except.ok "abc1234 wip\n"
  else Except.ok ""

/-- A gateway whose status query fails while the stash query reports one
entry. -/
def gwStatusFail : Gateway := fun _ args =>
  if args = ["status", "--porcelain"] then
    Except.error "git status --porcelain failed: boom"
  else if args = ["stash", "list"] then Except.ok "stash entry\n"
  else Except.ok ""

/-- Witness for C4: a repository without remotes goes `Unknown` with count
0; a repository one commit ahead goes `Unsafe` with count 1. -/
theorem C4_local_only_check_witness :
    check_local_only_commits gwEmptyOk "/n" (RepoResult.new "/n") =
      { RepoResult.new "/n" with
          status := Status.Unknown, reasons := [Reason.NoRemoteRefs] } ∧
    (check_repository gwEmptyOk "/n" false).local_only_commit_count = 0 ∧
    check_local_only_commits gwAhead "/a" (RepoResult.new "/a") =
      { RepoResult.new "/a" with
          local_only_commit_count := 1, status := Status.Unsafe,
          reasons := [Reason.LocalOnlyCommits] } :=
  ⟨((C4_local_only_check gwEmptyOk "/n" (RepoResult.new "/n") "" "" rfl rfl).1
      (by decide)).1,
   ((C4_local_only_check gwEmptyOk "/n" (RepoResult.new "/n") "" "" rfl rfl).1
      (by decide)).2.2 false,
   (C4_local_only_check gwAhead "/a" (RepoResult.new "/a") "origin\n"
      "refs/remotes/origin/main\n" rfl rfl).2 (by decide)
      "abc1234 wip\n" rfl (by decide)⟩

/-- C5: gateway-error recovery — whichever query of whichever check fails,
that check records a `GitError` finding, degrades the status to `Unknown`
unless it is already `Unsafe`, appends the raw message to the error list,
and only that check stops: a later check can still force `Unsafe` and the
error stays recorded in the final classification. -/
theorem C5_gateway_error_recovery :
    ∀ (g : Gateway) (p : String) (r : RepoResult) (e : String),
      (git_command g p ["status", "--porcelain"] = Except.error e →
        ∀ ig : Bool, check_uncommitted_changes g p r ig =
          { r with
              status := if r.status = Status.Unsafe then r.status else Status.Unknown,
              reasons := r.reasons ++ [Reason.GitError e],
              errors := r.errors ++ [e] }) ∧
      (git_command g p ["stash", "list"] = Except.error e →
        check_stash g p r =
          { r with
              status := if r.status = Status.Unsafe then r.status else Status.Unknown,
              reasons := r.reasons ++ [Reason.GitError e],
              errors := r.errors ++ [e] }) ∧
      (git_command g p ["remote"] = Except.error e →
        check_local_only_commits g p r =
          { r with
              status := if r.status = Status.Unsafe then r.status else Status.Unknown,
              reasons := r.reasons ++ [Reason.GitError e],
              errors := r.errors ++ [e] }) ∧
      (∀ rs : String, git_command g p ["remote"] = Except.ok rs →
        git_command g p ["for-each-ref", "--format=%(refname)", "refs/remotes/"]
          = Except.error e →
        check_local_only_commits g p r =
          { r with
              status := if r.status = Status.Unsafe then r.status else Status.Unknown,
              reasons := r.reasons ++ [Reason.GitError e],
              errors := r.errors ++ [e] }) ∧
      (∀ rs fr : String, git_command g p ["remote"] = Except.ok rs →
        git_command g p ["for-each-ref", "--format=%(refname)", "refs/remotes/"]
          = Except.ok fr →
        ((trimStr rs).data.isEmpty || (trimStr fr).data.isEmpty) = false →
        git_command g p ["log", "--oneline", "--branches", "--not", "--remotes"]
          = Except.error e →
        check_local_only_commits g p r =
          { r with
              status := if r.status = Status.Unsafe then r.status else Status.Unknown,
              reasons := r.reasons ++ [Reason.GitError e],
              errors := r.errors ++ [e] }) ∧
      (∀ (ig : Bool) (s : String),
        git_command g p ["status", "--porcelain"] = Except.error e →
        git_command g p ["stash", "list"] = Except.ok s →
        0 < (rustLines s).countP (fun l => !l.data.isEmpty) →
        (check_repository g p ig).status = Status.Unsafe ∧
        Reason.StashExists ∈ (check_repository g p ig).reasons ∧
        e ∈ (check_repository g p ig).errors) := by
  intro g p r e
  refine ⟨fun h ig => check_uncommitted_error_eq g p r ig e h,
          fun h => check_stash_error_eq g p r e h,
          fun h => check_local_only_remote_error_eq g p r e h,
          fun rs h1 h2 => check_local_only_refs_error_eq g p r rs e h1 h2,
          fun rs fr h1 h2 h3 h4 => check_local_only_log_error_eq g p r rs fr e h1 h2 h3 h4,
          ?_⟩
  intro ig s h1 h2 hpos
  have e1 := check_uncommitted_error_eq g p (RepoResult.new p) ig e h1
  set r1 := check_uncommitted_changes g p (RepoResult.new p) ig with hr1def
  have e2 := check_stash_pos_eq g p r1 s h2 hpos
  set r2 := check_stash g p r1 with hr2def
  set r3 := check_local_only_commits g p r2 with hr3def
  have hcr : check_repository g p ig = RepoResult.finalize_safe r3 := rfl
  have hst2 : r2.status = Status.Unsafe := by rw [e2]
  have hst3 : r3.status = Status.Unsafe := check_local_only_preserves g p r2 hst2
  have hmem2 : Reason.StashExists ∈ r2.reasons := by
    rw [e2]
    exact List.mem_append_right _ (List.mem_singleton.mpr rfl)
  have hmem3 : Reason.StashExists ∈ r3.reasons :=
    reasons_mem_of_cases (check_local_only_cases g p r2) hmem2
  have herr1 : e ∈ r1.errors := by
    rw [e1]
    exact List.mem_append_right _ (List.mem_singleton.mpr rfl)
  have herr2 : e ∈ r2.errors := by
    rw [e2]
    exact herr1
  have herr3 : e ∈ r3.errors := check_local_only_errors_mem g p r2 herr2
  refine ⟨?_, ?_, ?_⟩
  · rw [hcr, finalize_safe_status]
    exact hst3
  · rw [hcr]
    exact finalize_reasons_mem hmem3
  · rw [hcr, finalize_errors]
    exact herr3

/-- Witness for C5 at a gateway whose status query fails while a stash
entry exists: the check-A failure is recovered and check B still forces
`Unsafe`. -/
theorem C5_gateway_error_recovery_witness :
    check_uncommitted_changes gwStatusFail "/f" (RepoResult.new "/f") false =
      { RepoResult.new "/f" with
          status := Status.Unknown,
          reasons := [Reason.GitError "git status --porcelain failed: boom"],
          errors := ["git status --porcelain failed: boom"] } ∧
    ((check_repository gwStatusFail "/f" false).status = Status.Unsafe ∧
      Reason.StashExists ∈ (check_repository gwStatusFail "/f" false).reasons ∧
      "git status --porcelain failed: boom"
        ∈ (check_repository gwStatusFail "/f" false).errors) :=
  ⟨(C5_gateway_error_recovery gwStatusFail "/f" (RepoResult.new "/f")
      "git status --porcelain failed: boom").1 rfl false,
   (C5_gateway_error_recovery gwStatusFail "/f" (RepoResult.new "/f")
      "git status --porcelain failed: boom").2.2.2.2.2 false "stash entry\n"
      rfl rfl (by decide)⟩

/-! ## Discovery and deletion-guard claims -/

/-- A base path whose listing fails but which itself contains a `.git`
directory. -/
def fsUnreadable : FileSystem :=
  { pathExists := fun s => s = "/b/.git"
    isDir := fun s => s = "/b/.git"
    readDir := fun _ => none }

/-- A base path whose listing fails and which is not a repository. -/
def fsNoRepo : FileSystem :=
  { pathExists := fun _ => false
    isDir := fun _ => false
    readDir := fun _ => none }

/-- C8 counterexample: a base path whose listing fails but which itself
qualifies as a repository is returned when `include_dot` is set, so the
result is not empty for both values of the flag. -/
theorem C8_counterexample :
    fsUnreadable.readDir "/b" = none ∧
    find_repositories fsUnreadable "/b" true ≠ [] :=
  ⟨rfl, by decide⟩

/-- C8 (amended): when the directory listing of the base path fails,
discovery returns no children — only the base path itself, exactly when
`include_dot` is set and it qualifies — and never fails; in every case the
returned sequence is sorted by path. -/
theorem C8_discovery_unreadable :
    ∀ (fs : FileSystem) (base : String) (inc : Bool),
      (fs.readDir base = none →
        find_repositories fs base inc =
          (if inc && is_git_repository fs base then [base] else [])) ∧
      List.Sorted (· ≤ ·) (find_repositories fs base inc) := by
  intro fs base inc
  constructor
  · intro h
    simp only [find_repositories, h]
    by_cases hg : (inc && is_git_repository fs base) = true
    · simp [hg, List.insertionSort, List.orderedInsert]
    · simp [hg, List.insertionSort]
  · unfold find_repositories
    exact List.sorted_insertionSort _ _

/-- Witness for C8 at concrete filesystems with failing listings. -/
theorem C8_discovery_unreadable_witness :
    find_repositories fsNoRepo "/b" true = [] ∧
    List.Sorted (· ≤ ·) (find_repositories fsUnreadable "/b" true) := by
  constructor
  · have h := (C8_discovery_unreadable fsNoRepo "/b" true).1 rfl
    rw [h]
    decide
  · exact (C8_discovery_unreadable fsUnreadable "/b" true).2

/-- Every path in the deletion trace entered it from a loop iteration whose
recheck succeeded (modulo paths already in the accumulator). -/
lemma execute_delete_from_trace :
    ∀ (items : List (RepoResult × DeleteEnv)) (da : Bool) (d s : Nat) (tr : List String)
      (p : String),
      p ∈ (execute_delete_from da d s tr items).2.2 →
      p ∈ tr ∨ ∃ pr ∈ items, pr.1.path = p ∧ quick_recheck pr.2.git pr.1.path = true := by
  intro items
  induction items with
  | nil =>
    intro da d s tr p h
    exact Or.inl h
  | cons hd rest ih =>
    intro da d s tr p h
    obtain ⟨r, env⟩ := hd
    have step : quick_recheck env.git r.path = true →
        (p ∈ tr ++ [r.path] ∨
          ∃ pr ∈ rest, pr.1.path = p ∧ quick_recheck pr.2.git pr.1.path = true) →
        p ∈ tr ∨
          ∃ pr ∈ (r, env) :: rest, pr.1.path = p ∧
            quick_recheck pr.2.git pr.1.path = true := by
      intro hq hcase
      rcases hcase with hm | ⟨pr, hpr, hp⟩
      · rcases List.mem_append.mp hm with hm | hm
        · exact Or.inl hm
        · have hp : r.path = p := (List.mem_singleton.mp hm).symm
          refine Or.inr ⟨(r, env), List.mem_cons_self _ _, hp, ?_⟩
          rw [hp] at hq
          rw [hp]
          exact hq
      · exact Or.inr ⟨pr, List.mem_cons_of_mem _ hpr, hp⟩
    rw [execute_delete_from] at h
    split at h
    · exact Or.inl h
    · rcases ih _ _ _ _ _ h with h' | ⟨pr, hpr, hp⟩
      · exact Or.inl h'
      · exact Or.inr ⟨pr, List.mem_cons_of_mem _ hpr, hp⟩
    · split at h
      · rename_i hq
        split at h
        · exact step hq (ih _ _ _ _ _ h)
        · exact step hq (ih _ _ _ _ _ h)
        · exact step hq (ih _ _ _ _ _ h)
      · rcases ih _ _ _ _ _ h with h' | ⟨pr, hpr, hp⟩
        · exact Or.inl h'
        · exact Or.inr ⟨pr, List.mem_cons_of_mem _ hpr, hp⟩

/-- A string equals the empty string iff its character list is empty. -/
lemma string_eq_empty_iff (s : String) : s = "" ↔ s.data = [] := by
  constructor
  · intro h
    rw [h]
  · intro h
    cases s with
    | mk data =>
      simp only at h
      rw [h]

/-- C2 counterexample: `quick_recheck` returns true on a status query that
succeeds with the non-empty (whitespace-only) output `"\n"`, so "returns
true iff the query succeeds with empty output" fails as stated. -/
theorem C2_counterexample :
    quick_recheck (fun _ args =>
        if args = ["status", "--porcelain"] then Except.ok "\n" else Except.ok "") "/w"
      = true ∧
    git_command (fun _ args =>
        if args = ["status", "--porcelain"] then Except.ok "\n" else Except.ok "") "/w"
      ["status", "--porcelain"] = Except.ok "\n" ∧
    ("\n" : String) ≠ "" :=
  ⟨by decide, rfl, by decide⟩

/-- C2 (amended): `quick_recheck` returns true iff the uncommitted-changes
query succeeds with output empty up to whitespace (trimmed empty); in the
deletion loop, the destructive call is performed only on paths whose
recheck returned true immediately before, and a path all of whose
candidate entries fail the recheck is never deleted. -/
theorem C2_deletion_guard :
    (∀ (g : Gateway) (p : String),
      quick_recheck g p = true ↔
        ∃ o, git_command g p ["status", "--porcelain"] = Except.ok o ∧ trimStr o = "") ∧
    (∀ (cands : List (RepoResult × DeleteEnv)) (sc : Bool) (p : String),
      p ∈ (execute_delete cands sc).2.2 →
        ∃ pr ∈ cands, pr.1.path = p ∧ quick_recheck pr.2.git pr.1.path = true) ∧
    (∀ (cands : List (RepoResult × DeleteEnv)) (sc : Bool) (p : String),
      (∀ pr ∈ cands, pr.1.path = p → quick_recheck pr.2.git pr.1.path = false) →
      p ∉ (execute_delete cands sc).2.2) := by
  have hguard : ∀ (cands : List (RepoResult × DeleteEnv)) (sc : Bool) (p : String),
      p ∈ (execute_delete cands sc).2.2 →
        ∃ pr ∈ cands, pr.1.path = p ∧ quick_recheck pr.2.git pr.1.path = true := by
    intro cands sc p h
    rcases execute_delete_from_trace cands sc 0 0 [] p h with h' | h'
    · exact absurd h' (List.not_mem_nil p)
    · exact h'
  refine ⟨?_, hguard, ?_⟩
  · intro g p
    unfold quick_recheck git_command
    cases hg : g p ["status", "--porcelain"] with
    | error e => simp
    | ok o => simp [List.isEmpty_iff, string_eq_empty_iff]
  · intro cands sc p hall hmem
    rcases hguard cands sc p hmem with ⟨pr, hpr, hpath, htrue⟩
    rw [hall pr hpr hpath] at htrue
    exact Bool.noConfusion htrue

/-- One deletion-loop iteration environment for a clean repository. -/
def cleanEnv : DeleteEnv :=
  { git := gwClean, confirm := DeleteConfirm.yes, deleteOutcome := Except.ok true }

/-- Witness for C2 at a clean repository that is confirmed and deleted. -/
theorem C2_deletion_guard_witness :
    (∃ o, git_command gwClean "/c" ["status", "--porcelain"] = Except.ok o ∧ trimStr o = "") ∧
    (∃ pr ∈ [(RepoResult.new "/c", cleanEnv)],
      pr.1.path = "/c" ∧ quick_recheck pr.2.git pr.1.path = true) :=
  ⟨(C2_deletion_guard.1 gwClean "/c").mp (by decide),
   C2_deletion_guard.2.1 [(RepoResult.new "/c", cleanEnv)] false "/c" (by decide)⟩

end RepoCheck

